import Mathlib

/-!
Shallow embedding of the notebook export pipeline of
backend/services/file_service.py (class FileService): the folder path
resolver _get_folder_path, the filename sanitizer _sanitize_filename, the
S3 byte fetch get_file_bytes_from_s3, and the ZIP assembler
export_notebook_as_zip.

Modelling conventions:
- Python strings are Lean String, identifiers are String (the code compares
  ids via str(...) == str(...), i.e. string equality).
- Nullable columns are Option; Python truthiness of a string value s is
  the test s is not None and s is not empty.
- bytes values are List UInt8.
- The S3 client is Option (key -> Except String bytes): none models
  s3_client is None, Except.error models a raised exception in get_object.
- _get_folder_path is unbounded recursion in Python.  It is embedded with
  an explicit fuel argument counting call frames; the result none means
  the Python call never returns (RecursionError on a cyclic parent chain).
  A terminating run starting from a folder visits pairwise distinct
  folders (the parent of a folder in a fixed folder list is determined, so
  a repeated folder would repeat forever), and every visited folder after
  the first is a member of the list, so fuel (length of the list + 1)
  is enough for every terminating run; resolvePath uses that budget.
- The ZIP archive is modelled as its list of entries (path, content) in
  the order they are written; byte level ZIP encoding is out of scope of
  the claims.
-/

/-! ## Data model (backend/models, the columns used by the export) -/

/-- Inline content of a file record: the content column holds either text
(str) or binary (bytes) in Python; other columns of the File model are not
read by the export pipeline and are omitted. -/
inductive FileContent where
  | text (s : String)
  | binary (b : List UInt8)
deriving DecidableEq, Repr

/-- File record, restricted to the columns export_notebook_as_zip reads:
id, filename (display name), unique_filename (storage key),
content (inline content), folder_id. -/
structure File where
  id : String
  filename : String
  unique_filename : Option String
  content : Option FileContent
  folder_id : Option String
deriving DecidableEq, Repr

/-- Folder record, restricted to the columns the export reads:
id, name, parent_id. -/
structure Folder where
  id : String
  name : String
  parent_id : Option String
deriving DecidableEq, Repr

/-- One entry of the produced archive: its path inside the ZIP and its
byte content.  Directory entries have a path ending in the separator and
empty content. -/
structure ZipEntry where
  path : String
  content : List UInt8
deriving DecidableEq, Repr

/-- The blob storage client: none models s3_client is None; some fetch
models a configured client whose get_object either returns the bytes of
the object or raises (Except.error). -/
abbrev S3Client : Type := Option (String → Except String (List UInt8))

/-- Python truthiness of an optional string column (None and the empty
string are falsy). -/
def strTruthy : Option String → Bool
  | none => false
  | some s => s ≠ ""

/-- Python truthiness of the content column (None, the empty string and
empty bytes are falsy). -/
def contentTruthy : Option FileContent → Bool
  | none => false
  | some (FileContent.text s) => s ≠ ""
  | some (FileContent.binary b) => b ≠ []

/-! ## _sanitize_filename (file_service.py lines 417-425) -/

/-- The characters replaced by _sanitize_filename, in source order. -/
def invalidChars : List Char := ['<', '>', ':', '\"', '/', '\\', '|', '?', '*']

/-- Replacement performed by the chain of str.replace calls: each invalid
character becomes an underscore, every other character is kept.  The nine
replace calls run sequentially, but each replaces a single character by an
underscore (never an invalid character), so the chain equals one map. -/
def replaceInvalidChar (c : Char) : Char := if c ∈ invalidChars then '_' else c

/-- Whitespace stripped by Python str.strip: space, tab, newline, carriage
return, vertical tab, form feed (the ASCII whitespace class; the claims do
not depend on the extra Unicode space code points Python also strips). -/
def pyIsSpace (c : Char) : Bool :=
  c = ' ' || c = '\t' || c = '\n' || c = '\r' || c = '\x0B' || c = '\x0C'

/-- Python str.strip on a character list: drop whitespace from the front,
then from the back. -/
def pyStrip (cs : List Char) : List Char :=
  ((cs.dropWhile pyIsSpace).reverse.dropWhile pyIsSpace).reverse

/-- _sanitize_filename: replace each character of invalidChars by an
underscore, then strip leading and trailing whitespace. -/
def sanitizeFilename (s : String) : String :=
  String.mk (pyStrip (s.data.map replaceInvalidChar))

/-- Python or-default on an optional string: notebook_name or "notebook"
yields the default when the value is None or empty. -/
def pyOrDefault (x : Option String) (d : String) : String :=
  match x with
  | none => d
  | some s => if s = "" then d else s

/-- The top level directory of the archive: the sanitized notebook name
(defaulted to "notebook") followed by the separator
(export_notebook_as_zip lines 342-343). -/
def exportBase (notebookName : Option String) : String :=
  sanitizeFilename (pyOrDefault notebookName "notebook") ++ "/"

/-! ## _get_folder_path (file_service.py lines 403-415) -/

/-- The accumulator update of _get_folder_path:
folder.name if not path else folder.name/path. -/
def pathJoin (name path : String) : String :=
  if path = "" then name else name ++ "/" ++ path

/-- Fueled embedding of _get_folder_path(folder, all_folders, path).  The
fuel counts Python call frames; none models a call that never returns
(unbounded recursion, RecursionError).  The parent is looked up by string
equality of ids; Python tests if folder.parent_id, so an empty parent id
is treated like a missing one. -/
def getFolderPathAux : Nat → Folder → List Folder → String → Option String
  | 0, _, _, _ => none
  | fuel + 1, folder, allFolders, path =>
    match folder.parent_id with
    | some pid =>
      if pid = "" then some (pathJoin folder.name path)
      else
        match List.find? (fun g => g.id == pid) allFolders with
        | some parent => getFolderPathAux fuel parent allFolders (pathJoin folder.name path)
        | none => some (pathJoin folder.name path)
    | none => some (pathJoin folder.name path)

/-- _get_folder_path with its default accumulator and a fuel budget that
is enough for every terminating run (see the header note): the result is
some path exactly when the Python call returns, and none exactly when it
recurses unboundedly. -/
def resolvePath (folder : Folder) (allFolders : List Folder) : Option String :=
  getFolderPathAux (allFolders.length + 1) folder allFolders ""

/-! ## get_file_bytes_from_s3 (lines 180-198) and the content resolution
of the export loop (lines 358-376) -/

/-- UTF-8 encoding of a string to bytes (str.encode in Python). -/
def utf8Encode (s : String) : List UInt8 := s.data.flatMap String.utf8EncodeChar

/-- get_file_bytes_from_s3: returns empty bytes when no client is
configured; otherwise fetches by key and degrades any raised exception to
empty bytes.  Total: it never raises. -/
def getFileBytesFromS3 (client : S3Client) (key : String) : List UInt8 :=
  match client with
  | none => []
  | some fetch =>
    match fetch key with
    | Except.ok bs => bs
    | Except.error _ => []

/-- The inline content of a file as bytes: text is UTF-8 encoded, binary
content passes through, a missing column gives empty bytes. -/
def inlineBytes : Option FileContent → List UInt8
  | some (FileContent.text s) => utf8Encode s
  | some (FileContent.binary b) => b
  | none => []

/-- Content resolution of the export loop (lines 359-376): truthy inline
content first (str encoded UTF-8, bytes as is), else a truthy storage key
is fetched from S3, else empty bytes.  The inner try around the S3 fetch
is redundant in the embedding because getFileBytesFromS3 is total. -/
def resolveContent (client : S3Client) (f : File) : List UInt8 :=
  if contentTruthy f.content then inlineBytes f.content
  else if strTruthy f.unique_filename then
    getFileBytesFromS3 client (f.unique_filename.getD "")
  else []

/-- Modelled from the spec: the content resolution policy of section 4.2,
stated in its own words (non-empty inline content first, text encoded
UTF-8 and binary passed through; else fetch by the storage key with every
fetch failure degrading to empty bytes; else empty bytes), to be compared
with resolveContent, the definition taken from the source. -/
def contentPolicySpec (client : S3Client) (f : File) : List UInt8 :=
  match f.content with
  | some (FileContent.text s) =>
    if s ≠ "" then utf8Encode s
    else if strTruthy f.unique_filename then getFileBytesFromS3 client (f.unique_filename.getD "") else []
  | some (FileContent.binary b) =>
    if b ≠ [] then b
    else if strTruthy f.unique_filename then getFileBytesFromS3 client (f.unique_filename.getD "") else []
  | none =>
    if strTruthy f.unique_filename then getFileBytesFromS3 client (f.unique_filename.getD "") else []

/-! ## export_notebook_as_zip (lines 329-401) -/

/-- Body of one iteration of the file loop of export_notebook_as_zip
(lines 357-397, the part inside the per-file try): resolve the content,
then place the entry.  A truthy folder_id is looked up by string equality
in the fetched folder list; a found folder nests the file under its
resolved path, otherwise the file goes to the root of the notebook
directory.  The result none models an exception inside the try (the only
one the embedding can produce is the unbounded recursion of the path
resolver, a RecursionError caught by the per-file except). -/
def fileStep (client : S3Client) (base : String) (folders : List Folder) (f : File) :
    Option ZipEntry :=
  let content := resolveContent client f
  match f.folder_id with
  | some fid =>
    if fid = "" then some ⟨base ++ f.filename, content⟩
    else
      match List.find? (fun g => g.id == fid) folders with
      | some fo =>
        match resolvePath fo folders with
        | some p => some ⟨base ++ p ++ "/" ++ f.filename, content⟩
        | none => none
      | none => some ⟨base ++ f.filename, content⟩
  | none => some ⟨base ++ f.filename, content⟩

/-- The file loop of export_notebook_as_zip: each file whose step raises
is skipped (except ... continue), every other file contributes its entry,
in order. -/
def addFilesToZip (step : File → Option ZipEntry) : List File → List ZipEntry
  | [] => []
  | f :: fs =>
    match step f with
    | some e => e :: addFilesToZip step fs
    | none => addFilesToZip step fs

/-- The folder loop of export_notebook_as_zip (lines 351-354): one empty
directory entry per fetched folder at base ++ path ++ "/".  This loop runs
outside any try, so a path resolution that never returns (none) makes the
whole export never return: the loop is sequenced with mapM. -/
def folderEntries (base : String) (folders : List Folder) : Option (List ZipEntry) :=
  Option.map (List.map (fun p => ZipEntry.mk (base ++ p ++ "/") []))
    (folders.mapM (fun fo => resolvePath fo folders))

/-- export_notebook_as_zip, given the fetched file and folder listings
(the repository reads of lines 335 and 348): sanitize and default the
notebook name, write one directory entry per folder, then run the
per-file loop.  The result none models an invocation that never returns
to the caller (RecursionError in the folder loop). -/
def exportNotebookAsZip (client : S3Client) (notebookName : Option String)
    (files : List File) (folders : List Folder) : Option (List ZipEntry) :=
  match folderEntries (exportBase notebookName) folders with
  | none => none
  | some dirs =>
    some (dirs ++ addFilesToZip (fileStep client (exportBase notebookName) folders) files)

/-! ## Collaborator calls of the export (for the frame claim) -/

/-- The operations the FileService issues against its collaborators
(database repositories and the S3 client).  The write operations are the
ones other FileService methods perform (session.commit, repo.create,
repo.update, repo.delete, upload_fileobj, delete_object). -/
inductive DbOp where
  | listFiles (userId notebookId : String)
  | listFolders (userId notebookId : String)
  | s3GetObject (key : String)
  | s3PutObject (key : String)
  | s3DeleteObject (key : String)
  | dbCommit
  | dbCreate
  | dbUpdate
  | dbDelete
deriving DecidableEq, Repr

/-- Classification of collaborator operations: listing and object reads
leave persisted state unchanged, everything else mutates it. -/
def readOnlyOp : DbOp → Bool
  | DbOp.listFiles _ _ => true
  | DbOp.listFolders _ _ => true
  | DbOp.s3GetObject _ => true
  | _ => false

/-- The collaborator calls made by one invocation of
export_notebook_as_zip, in order: the file listing (line 335), the folder
listing when a folder repository is configured (lines 347-348), and one
S3 object read per file that has no truthy inline content but a truthy
storage key (line 372).  No other collaborator call occurs in its body;
the ZIP buffer is process local. -/
def exportOps (hasFolderRepo : Bool) (userId notebookId : String) (files : List File) :
    List DbOp :=
  DbOp.listFiles userId notebookId ::
    ((if hasFolderRepo then [DbOp.listFolders userId notebookId] else []) ++
      files.filterMap (fun f =>
        if contentTruthy f.content then none
        else if strTruthy f.unique_filename then
          some (DbOp.s3GetObject (f.unique_filename.getD ""))
        else none))

/-! ## Helper lemmas on the path resolver -/

/-- Unfolding of getFolderPathAux at positive fuel. -/
lemma getFolderPathAux_succ (fuel : Nat) (folder : Folder) (allFolders : List Folder)
    (path : String) :
    getFolderPathAux (fuel + 1) folder allFolders path =
      match folder.parent_id with
      | some pid =>
        if pid = "" then some (pathJoin folder.name path)
        else
          match List.find? (fun g => g.id == pid) allFolders with
          | some parent => getFolderPathAux fuel parent allFolders (pathJoin folder.name path)
          | none => some (pathJoin folder.name path)
      | none => some (pathJoin folder.name path) := rfl

/-- A result reached with some fuel is also reached with one unit more:
the fuel bound only cuts off runs that do not terminate. -/
lemma getFolderPathAux_mono (allFolders : List Folder) :
    ∀ (fuel : Nat) (folder : Folder) (path r : String),
      getFolderPathAux fuel folder allFolders path = some r →
      getFolderPathAux (fuel + 1) folder allFolders path = some r := by
  intro fuel
  induction fuel with
  | zero => intro folder path r h; exact absurd h (by simp [getFolderPathAux])
  | succ fuel ih =>
    intro folder path r h
    rw [getFolderPathAux_succ] at h
    rw [getFolderPathAux_succ]
    cases hpi : folder.parent_id with
    | none => simpa [hpi] using h
    | some pid =>
      by_cases hpe : pid = ""
      · simpa [hpi, hpe] using h
      · cases hf : List.find? (fun g => g.id == pid) allFolders with
        | none => simpa [hpi, hpe, hf] using h
        | some parent =>
          simp only [hpi, hpe, hf, if_neg hpe] at h ⊢
          exact ih parent (pathJoin folder.name path) r h

/-- A concatenation around the separator is never the empty string. -/
lemma append_sep_ne_empty (a s : String) : a ++ "/" ++ s ≠ "" := by
  intro h
  have hlen := congrArg String.length h
  rw [String.length_append, String.length_append] at hlen
  have hsep : ("/" : String).length = 1 := rfl
  have hnil : ("" : String).length = 0 := rfl
  omega

/-- Shift lemma: with a non-empty accumulator, the resolver computes the
same path as with an empty accumulator and appends the accumulator behind
a separator, provided the start folder and every folder of the list have
non-empty names (an empty name makes pathJoin drop the separator). -/
lemma getFolderPathAux_shift (allFolders : List Folder)
    (hnames : ∀ g ∈ allFolders, g.name ≠ "") :
    ∀ (fuel : Nat) (folder : Folder) (s : String), folder.name ≠ "" → s ≠ "" →
      getFolderPathAux fuel folder allFolders s =
        Option.map (fun r => r ++ "/" ++ s) (getFolderPathAux fuel folder allFolders "") := by
  intro fuel
  induction fuel with
  | zero => intro folder s _ _; rfl
  | succ fuel ih =>
    intro folder s hname hs
    rw [getFolderPathAux_succ, getFolderPathAux_succ]
    have hjoin : pathJoin folder.name s = folder.name ++ "/" ++ s := if_neg hs
    have hjoin0 : pathJoin folder.name "" = folder.name := if_pos rfl
    cases hpi : folder.parent_id with
    | none => simp [hjoin, hjoin0]
    | some pid =>
      by_cases hpe : pid = ""
      · simp [hpe, hjoin, hjoin0]
      · cases hf : List.find? (fun g => g.id == pid) allFolders with
        | none => simp [hpe, hf, hjoin, hjoin0]
        | some parent =>
          have hparent : parent ∈ allFolders := List.mem_of_find?_eq_some hf
          have hpname : parent.name ≠ "" := hnames parent hparent
          simp only [hpe, hf, hjoin, hjoin0, if_neg hpe]
          rw [ih parent (folder.name ++ "/" ++ s) hpname (append_sep_ne_empty _ _),
            ih parent folder.name hpname hname]
          cases getFolderPathAux fuel parent allFolders "" with
          | none => rfl
          | some r => simp [String.append_assoc]

/-- The file loop with skip-on-raise equals filterMap of the per-file
step: exactly the files whose step succeeds contribute, in order. -/
lemma addFilesToZip_eq_filterMap (step : File → Option ZipEntry) :
    ∀ files : List File, addFilesToZip step files = files.filterMap step := by
  intro files
  induction files with
  | nil => rfl
  | cons f fs ih =>
    cases hf : step f with
    | none => simp [addFilesToZip, hf, ih]
    | some e => simp [addFilesToZip, hf, ih]

/-! ## Helper lemmas on the sanitizer -/

/-- Dropping a satisfied front twice is the same as dropping it once. -/
lemma dropWhile_dropWhile {α : Type} (p : α → Bool) :
    ∀ l : List α, List.dropWhile p (List.dropWhile p l) = List.dropWhile p l := by
  intro l
  induction l with
  | nil => rfl
  | cons c t ih =>
    by_cases hp : p c
    · simp [List.dropWhile, hp, ih]
    · simp [List.dropWhile, hp]

/-- The head surviving a dropWhile does not satisfy the dropped test. -/
lemma head?_dropWhile_false {α : Type} (p : α → Bool) :
    ∀ (l : List α) (c : α), (l.dropWhile p).head? = some c → p c = false := by
  intro l
  induction l with
  | nil => intro c h; cases h
  | cons a t ih =>
    intro c h
    by_cases hp : p a
    · rw [List.dropWhile_cons_of_pos hp] at h
      exact ih c h
    · rw [List.dropWhile_cons_of_neg hp] at h
      cases h
      simpa using hp

/-- A list whose head does not satisfy the test is untouched by
dropWhile. -/
lemma dropWhile_eq_self_of_head? {α : Type} (p : α → Bool) (l : List α)
    (h : ∀ c, l.head? = some c → p c = false) : l.dropWhile p = l := by
  cases l with
  | nil => rfl
  | cons a t => exact List.dropWhile_cons_of_neg (by simp [h a rfl])

/-- dropWhile keeps the last element of the list when its result is
non-empty. -/
lemma getLast?_dropWhile {α : Type} (p : α → Bool) :
    ∀ l : List α, l.dropWhile p ≠ [] → (l.dropWhile p).getLast? = l.getLast? := by
  intro l
  induction l with
  | nil => intro h; exact absurd rfl h
  | cons a t ih =>
    intro h
    by_cases hp : p a
    · rw [List.dropWhile_cons_of_pos hp] at h ⊢
      have ht : t ≠ [] := by
        intro he
        rw [he] at h
        exact h rfl
      cases t with
      | nil => exact absurd rfl ht
      | cons b t2 => rw [ih h, List.getLast?_cons_cons]
    · rw [List.dropWhile_cons_of_neg hp]

/-- Membership in a dropWhile result implies membership in the list. -/
lemma mem_of_mem_dropWhile {α : Type} (p : α → Bool) :
    ∀ (l : List α) (a : α), a ∈ l.dropWhile p → a ∈ l := by
  intro l
  induction l with
  | nil => intro a h; cases h
  | cons b t ih =>
    intro a h
    by_cases hp : p b
    · rw [List.dropWhile_cons_of_pos hp] at h
      exact List.mem_cons_of_mem b (ih a h)
    · rwa [List.dropWhile_cons_of_neg hp] at h

/-- Membership in a stripped list implies membership in the list. -/
lemma mem_of_mem_pyStrip {a : Char} {l : List Char} (h : a ∈ pyStrip l) : a ∈ l := by
  unfold pyStrip at h
  rw [List.mem_reverse] at h
  have h2 := mem_of_mem_dropWhile pyIsSpace _ _ h
  rw [List.mem_reverse] at h2
  exact mem_of_mem_dropWhile pyIsSpace _ _ h2

/-- Stripping is idempotent. -/
lemma pyStrip_idem (l : List Char) : pyStrip (pyStrip l) = pyStrip l := by
  unfold pyStrip
  set u := l.dropWhile pyIsSpace with hu
  set v := u.reverse.dropWhile pyIsSpace with hv
  have hfront : v.reverse.dropWhile pyIsSpace = v.reverse := by
    apply dropWhile_eq_self_of_head?
    intro c hc
    rw [List.head?_reverse] at hc
    have hvne : v ≠ [] := by
      intro he
      rw [he] at hc
      cases hc
    have hlast : v.getLast? = u.reverse.getLast? := getLast?_dropWhile pyIsSpace u.reverse (hv ▸ hvne)
    rw [hlast, List.getLast?_reverse] at hc
    exact head?_dropWhile_false pyIsSpace l c hc
  rw [hfront, List.reverse_reverse]
  rw [show v.dropWhile pyIsSpace = v from hv ▸ dropWhile_dropWhile pyIsSpace u.reverse]

/-- Replacing an invalid character never produces an invalid character. -/
lemma replaceInvalidChar_not_invalid (c : Char) : replaceInvalidChar c ∉ invalidChars := by
  unfold replaceInvalidChar
  by_cases h : c ∈ invalidChars
  · rw [if_pos h]; decide
  · rwa [if_neg h]

/-- The replacement map is idempotent on characters. -/
lemma replaceInvalidChar_idem (c : Char) :
    replaceInvalidChar (replaceInvalidChar c) = replaceInvalidChar c := by
  unfold replaceInvalidChar
  by_cases h : c ∈ invalidChars
  · rw [if_pos h]; decide
  · rw [if_neg h, if_neg h]

example : sanitizeFilename " a<b*c " = "a_b_c" := by decide

example : resolvePath ⟨"f", "", some "p"⟩ [⟨"p", "p", none⟩, ⟨"f", "", some "p"⟩] = some "p" := by decide

example : resolvePath ⟨"c", "c", some "b"⟩
    [⟨"a", "a", none⟩, ⟨"b", "b", some "a"⟩, ⟨"c", "c", some "b"⟩] = some "a/b/c" := by decide

example : resolvePath ⟨"a", "A", some "b"⟩
    [⟨"a", "A", some "b"⟩, ⟨"b", "B", some "a"⟩] = none := by decide

/-! ## Remaining shared helper lemmas -/

/-- A map whose function fixes every member of the list is the identity
on that list. -/
lemma map_fixed {α : Type} (f : α → α) :
    ∀ l : List α, (∀ c ∈ l, f c = c) → l.map f = l := by
  intro l
  induction l with
  | nil => intro _; rfl
  | cons a t ih =>
    intro h
    rw [List.map_cons, h a (List.mem_cons_self a t), ih (fun c hc => h c (List.mem_cons_of_mem a hc))]

/-- Every entry produced by the per-file step lies below the base
directory of the archive. -/
lemma fileStep_below_base (client : S3Client) (base : String) (folders : List Folder)
    (f : File) (e : ZipEntry) (h : fileStep client base folders f = some e) :
    ∃ rest, e.path = base ++ rest := by
  unfold fileStep at h
  cases hfi : f.folder_id with
  | none =>
    simp [hfi] at h
    exact ⟨f.filename, by rw [← h]⟩
  | some fid =>
    by_cases hz : fid = ""
    · subst hz
      simp [hfi] at h
      exact ⟨f.filename, by rw [← h]⟩
    · cases hfind : List.find? (fun g => g.id == fid) folders with
      | none =>
        simp [hfi, hz, hfind] at h
        exact ⟨f.filename, by rw [← h]⟩
      | some fo =>
        cases hres : resolvePath fo folders with
        | none => simp [hfi, hz, hfind, hres] at h
        | some p =>
          simp [hfi, hz, hfind, hres] at h
          refine ⟨p ++ "/" ++ f.filename, ?_⟩
          rw [← h]
          simp [String.append_assoc]

/-- A two-folder cyclic parent chain makes _get_folder_path recurse
without ever returning: at every fuel, from either folder of the cycle
and with any accumulator, the fueled embedding exhausts its budget. -/
lemma cycle_no_result :
    ∀ (fuel : Nat) (path : String),
      getFolderPathAux fuel ⟨"a", "A", some "b"⟩
        [⟨"a", "A", some "b"⟩, ⟨"b", "B", some "a"⟩] path = none ∧
      getFolderPathAux fuel ⟨"b", "B", some "a"⟩
        [⟨"a", "A", some "b"⟩, ⟨"b", "B", some "a"⟩] path = none := by
  intro fuel
  induction fuel with
  | zero => intro path; exact ⟨rfl, rfl⟩
  | succ fuel ih =>
    intro path
    constructor
    · have hstep : getFolderPathAux (fuel + 1) ⟨"a", "A", some "b"⟩
          [⟨"a", "A", some "b"⟩, ⟨"b", "B", some "a"⟩] path =
          getFolderPathAux fuel ⟨"b", "B", some "a"⟩
            [⟨"a", "A", some "b"⟩, ⟨"b", "B", some "a"⟩] (pathJoin "A" path) := rfl
      rw [hstep]
      exact (ih (pathJoin "A" path)).2
    · have hstep : getFolderPathAux (fuel + 1) ⟨"b", "B", some "a"⟩
          [⟨"a", "A", some "b"⟩, ⟨"b", "B", some "a"⟩] path =
          getFolderPathAux fuel ⟨"a", "A", some "b"⟩
            [⟨"a", "A", some "b"⟩, ⟨"b", "B", some "a"⟩] (pathJoin "B" path) := rfl
      rw [hstep]
      exact (ih (pathJoin "B" path)).1

/-! ## Claims -/

/-- C1: for the folder set with the cyclic parent chain A.parent = B,
B.parent = A, the path resolver does NOT terminate: whatever the
recursion budget, _get_folder_path never produces a result (in Python it
raises RecursionError), so no deterministic fallback path is returned.
This refutes the claimed behavior and exhibits the latent defect the spec
itself flags in the unguarded recursive form. -/
theorem c1_cycle_resolver_diverges :
    ∀ fuel : Nat,
      getFolderPathAux fuel ⟨"a", "A", some "b"⟩
        [⟨"a", "A", some "b"⟩, ⟨"b", "B", some "a"⟩] "" = none ∧
      resolvePath ⟨"a", "A", some "b"⟩
        [⟨"a", "A", some "b"⟩, ⟨"b", "B", some "a"⟩] = none :=
  fun fuel => ⟨(cycle_no_result fuel "").1, (cycle_no_result 3 "").1⟩

/-- C2 counterexample: a notebook whose folder listing is fetched
successfully but contains the cyclic parent chain A.parent = B,
B.parent = A makes the folder-entry loop (which runs outside any
per-file try) recurse unboundedly, so export_notebook_as_zip never
returns an archive to the caller, refuting the claim as stated. -/
theorem c2_counterexample :
    exportNotebookAsZip none (some "nb")
      [File.mk "x1" "a.md" none (some (FileContent.binary [1])) none]
      [Folder.mk "a" "A" (some "b"), Folder.mk "b" "B" (some "a")] = none := by decide

/-- C2 (amended): for every notebook whose file and folder listings are
fetched successfully AND whose folder path resolution terminates for
every listed folder (so in particular no cyclic parent chain), the
export returns an archive: the directory entries, followed by exactly
the entries of the files whose per-file step succeeds, in order.  A file
whose per-file step raises (filterMap yields none) only loses its own
entry; all other files are still archived and no per-file problem
reaches the caller. -/
theorem c2_export_isolation (client : S3Client) (notebookName : Option String)
    (files : List File) (folders : List Folder) (ps : List String)
    (h : folders.mapM (fun fo => resolvePath fo folders) = some ps) :
    exportNotebookAsZip client notebookName files folders =
      some ((ps.map fun p => ZipEntry.mk (exportBase notebookName ++ p ++ "/") []) ++
        files.filterMap (fileStep client (exportBase notebookName) folders)) := by
  unfold exportNotebookAsZip folderEntries
  rw [h]
  simp [addFilesToZip_eq_filterMap]

/-- Witness for C2 (amended) at a one-file, one-folder notebook. -/
theorem c2_export_isolation_witness :
    (List.mapM (fun fo => resolvePath fo [Folder.mk "d1" "docs" none])
      [Folder.mk "d1" "docs" none] = some ["docs"]) ∧
    exportNotebookAsZip none (some "nb")
      [File.mk "x1" "a.md" none none none] [Folder.mk "d1" "docs" none] =
      some [ZipEntry.mk "nb/docs/" [], ZipEntry.mk "nb/a.md" []] :=
  ⟨by decide, by
    rw [c2_export_isolation none (some "nb") [File.mk "x1" "a.md" none none none]
      [Folder.mk "d1" "docs" none] ["docs"] (by decide)]
    decide⟩

/-- C3 counterexample: a folder F with the empty name whose parent P is
present resolves to the path of P alone, not to resolve(P) concatenated
with the separator and the empty name: the accumulator test if not path
treats the empty name as no path at all and skips the separator. -/
theorem c3_counterexample :
    (Folder.mk "f1" "" (some "p1")).name = "" ∧
    List.find? (fun g => g.id == "p1")
      [Folder.mk "p1" "p" none, Folder.mk "f1" "" (some "p1")] = some (Folder.mk "p1" "p" none) ∧
    resolvePath (Folder.mk "f1" "" (some "p1"))
      [Folder.mk "p1" "p" none, Folder.mk "f1" "" (some "p1")] = some "p" ∧
    resolvePath (Folder.mk "p1" "p" none)
      [Folder.mk "p1" "p" none, Folder.mk "f1" "" (some "p1")] = some "p" ∧
    ("p" : String) ≠ "p" ++ "/" ++ "" := by decide

/-- C3 (amended): for every folder F with a non-empty name and a
non-empty parent id whose parent P (looked up by string equality of
identifiers) is present in a folder set all of whose names are
non-empty, whenever the resolver terminates on both F and P,
resolve_path(F) equals resolve_path(P) ++ "/" ++ F.name.  The empty-name
cases of the original claim are refuted by the counterexample. -/
theorem c3_parent_step (F P : Folder) (allFolders : List Folder) (pid p q : String)
    (hnames : ∀ g ∈ allFolders, g.name ≠ "") (hF : F.name ≠ "")
    (hpid : F.parent_id = some pid) (hpid2 : pid ≠ "")
    (hfind : List.find? (fun g => g.id == pid) allFolders = some P)
    (hFp : resolvePath F allFolders = some p)
    (hPq : resolvePath P allFolders = some q) :
    p = q ++ "/" ++ F.name := by
  have hPmem : P ∈ allFolders := List.mem_of_find?_eq_some hfind
  have hPname : P.name ≠ "" := hnames P hPmem
  unfold resolvePath at hFp hPq
  rw [getFolderPathAux_succ] at hFp
  simp only [hpid, if_neg hpid2, hfind] at hFp
  rw [show pathJoin F.name "" = F.name from if_pos rfl] at hFp
  rw [getFolderPathAux_shift allFolders hnames allFolders.length P F.name hPname hF] at hFp
  obtain ⟨q2, hq2, hpq⟩ := Option.map_eq_some'.1 hFp
  have hq2' := getFolderPathAux_mono allFolders allFolders.length P "" q2 hq2
  have hq2q : q2 = q := Option.some.inj (hq2'.symm.trans hPq)
  rw [← hpq, hq2q]

/-- Witness for C3 (amended) at a two-folder chain. -/
theorem c3_parent_step_witness :
    (∀ g ∈ [Folder.mk "p1" "p" none, Folder.mk "f1" "f" (some "p1")], g.name ≠ "") ∧
    resolvePath (Folder.mk "f1" "f" (some "p1"))
      [Folder.mk "p1" "p" none, Folder.mk "f1" "f" (some "p1")] = some "p/f" ∧
    resolvePath (Folder.mk "p1" "p" none)
      [Folder.mk "p1" "p" none, Folder.mk "f1" "f" (some "p1")] = some "p" ∧
    ("p/f" : String) = "p" ++ "/" ++ "f" :=
  ⟨by decide, by decide, by decide,
    c3_parent_step (Folder.mk "f1" "f" (some "p1")) (Folder.mk "p1" "p" none)
      [Folder.mk "p1" "p" none, Folder.mk "f1" "f" (some "p1")] "p1" "p/f" "p"
      (by decide) (by decide) rfl (by decide) (by decide) (by decide) (by decide)⟩

/-- C4: a folder with no parent reference, and a folder whose parent id
is set but absent from the provided set, both resolve to the folder name
alone: the folder is treated as a root and the resolver returns (no
error is raised, the function is total on these inputs). -/
theorem c4_root_fallback (F : Folder) (allFolders : List Folder)
    (h : F.parent_id = none ∨
      ∃ pid, F.parent_id = some pid ∧
        List.find? (fun g => g.id == pid) allFolders = none) :
    resolvePath F allFolders = some F.name := by
  unfold resolvePath
  rw [getFolderPathAux_succ]
  rcases h with h | ⟨pid, hpid, hfind⟩
  · simp [h, pathJoin]
  · by_cases hpe : pid = ""
    · simp [hpid, hpe, pathJoin]
    · simp [hpid, hpe, hfind, pathJoin]

/-- Witness for C4 at a folder with a dangling parent id. -/
theorem c4_root_fallback_witness :
    (List.find? (fun g => g.id == "ghost") ([] : List Folder) = none) ∧
    resolvePath (Folder.mk "f1" "docs" (some "ghost")) [] = some "docs" :=
  ⟨rfl, c4_root_fallback (Folder.mk "f1" "docs" (some "ghost")) []
    (Or.inr ⟨"ghost", rfl, rfl⟩)⟩

/-- C5: export content resolution agrees with the spec policy (non-empty
inline content first, text UTF-8 encoded and binary passed through; else
fetch by the storage key with every fetch failure degrading to empty
bytes; else empty bytes).  The resolution is a total function on every
File and every client, so it never raises. -/
theorem c5_content_resolution (client : S3Client) (f : File) :
    resolveContent client f = contentPolicySpec client f ∧
    (contentTruthy f.content = true → resolveContent client f = inlineBytes f.content) ∧
    (∀ fetch key e, client = some fetch → fetch key = Except.error e →
      getFileBytesFromS3 client key = []) ∧
    (contentTruthy f.content = false → strTruthy f.unique_filename = false →
      resolveContent client f = []) := by
  refine ⟨?_, ?_, ?_, ?_⟩
  · cases hc : f.content with
    | none => simp [resolveContent, contentPolicySpec, contentTruthy, hc]
    | some fc =>
      cases fc with
      | text s =>
        by_cases hs : s = "" <;>
          simp [resolveContent, contentPolicySpec, contentTruthy, hc, inlineBytes, hs]
      | binary b =>
        by_cases hb : b = [] <;>
          simp [resolveContent, contentPolicySpec, contentTruthy, hc, inlineBytes, hb]
  · intro h; simp [resolveContent, h]
  · intro fetch key e hcl herr
    subst hcl
    simp [getFileBytesFromS3, herr]
  · intro h1 h2; simp [resolveContent, h1, h2]

/-- Witness for C5: non-empty binary inline content wins over a
configured client whose every fetch raises, and that client degrades a
raised fetch to empty bytes. -/
theorem c5_content_resolution_witness :
    contentTruthy (some (FileContent.binary [7, 8])) = true ∧
    resolveContent (some fun _ => Except.error "boom")
      (File.mk "i1" "b.bin" (some "k.bin") (some (FileContent.binary [7, 8])) none) =
      inlineBytes (some (FileContent.binary [7, 8])) ∧
    getFileBytesFromS3 (some fun _ => Except.error "boom") "k.bin" = [] :=
  ⟨by decide,
    (c5_content_resolution (some fun _ => Except.error "boom")
      (File.mk "i1" "b.bin" (some "k.bin") (some (FileContent.binary [7, 8])) none)).2.1
      (by decide),
    (c5_content_resolution (some fun _ => Except.error "boom")
      (File.mk "i1" "b.bin" (some "k.bin") (some (FileContent.binary [7, 8])) none)).2.2.1
      (fun _ => Except.error "boom") "k.bin" "boom" rfl rfl⟩

/-- C6 counterexample: a file whose folder_id is the empty string while
a folder with the empty id sits in the fetched set.  The id matches a
folder of the set under string comparison, yet the code places the file
at the root, because if file.folder_id is falsy on the empty string and
the lookup is never attempted. -/
theorem c6_counterexample :
    (File.mk "x1" "a.md" none none (some "")).folder_id = some "" ∧
    List.find? (fun g => g.id == "") [Folder.mk "" "d" none] = some (Folder.mk "" "d" none) ∧
    exportNotebookAsZip none (some "nb")
      [File.mk "x1" "a.md" none none (some "")] [Folder.mk "" "d" none] =
      some [ZipEntry.mk "nb/d/" [], ZipEntry.mk "nb/a.md" []] ∧
    ("nb/a.md" : String) ≠ "nb/" ++ "d" ++ "/" ++ "a.md" := by decide

/-- C6 (amended): a file with a NON-EMPTY folder id whose folder is
found in the fetched set (string-compared ids) and whose folder path
resolution terminates is archived at base ++ path ++ "/" ++ filename; a
file whose non-empty folder id is absent from the set, a file with no
folder reference, and a file with an empty folder id (Python truthiness
skips the lookup) all land at the root of the notebook directory. -/
theorem c6_file_placement (client : S3Client) (base : String) (folders : List Folder)
    (f : File) :
    (∀ fid fo p, f.folder_id = some fid → fid ≠ "" →
      List.find? (fun g => g.id == fid) folders = some fo →
      resolvePath fo folders = some p →
      fileStep client base folders f =
        some (ZipEntry.mk (base ++ p ++ "/" ++ f.filename) (resolveContent client f))) ∧
    (∀ fid, f.folder_id = some fid → fid ≠ "" →
      List.find? (fun g => g.id == fid) folders = none →
      fileStep client base folders f =
        some (ZipEntry.mk (base ++ f.filename) (resolveContent client f))) ∧
    (f.folder_id = none ∨ f.folder_id = some "" →
      fileStep client base folders f =
        some (ZipEntry.mk (base ++ f.filename) (resolveContent client f))) := by
  refine ⟨?_, ?_, ?_⟩
  · intro fid fo p hfi hz hfind hres
    simp [fileStep, hfi, hz, hfind, hres]
  · intro fid hfi hz hfind
    simp [fileStep, hfi, hz, hfind]
  · intro h
    rcases h with h | h <;> simp [fileStep, h]

/-- Witness for C6 (amended) at a file nested in a found folder. -/
theorem c6_file_placement_witness :
    (File.mk "x1" "a.md" none none (some "d1")).folder_id = some "d1" ∧
    List.find? (fun g => g.id == "d1") [Folder.mk "d1" "docs" none] =
      some (Folder.mk "d1" "docs" none) ∧
    resolvePath (Folder.mk "d1" "docs" none) [Folder.mk "d1" "docs" none] = some "docs" ∧
    fileStep none "nb/" [Folder.mk "d1" "docs" none]
      (File.mk "x1" "a.md" none none (some "d1")) =
      some (ZipEntry.mk "nb/docs/a.md" []) :=
  ⟨rfl, by decide, by decide,
    ((c6_file_placement none "nb/" [Folder.mk "d1" "docs" none]
      (File.mk "x1" "a.md" none none (some "d1"))).1 "d1" (Folder.mk "d1" "docs" none)
      "docs" rfl (by decide) (by decide) (by decide)).trans (by decide)⟩

/-- C7: the notebook-name sanitizer is idempotent, and no character of
the replaced set occurs in any output: replacement maps every such
character to an underscore and stripping only removes characters. -/
theorem c7_sanitizer (x : String) :
    sanitizeFilename (sanitizeFilename x) = sanitizeFilename x ∧
    ∀ c ∈ invalidChars, c ∉ (sanitizeFilename x).data := by
  constructor
  · show String.mk (pyStrip ((pyStrip (x.data.map replaceInvalidChar)).map replaceInvalidChar)) =
      String.mk (pyStrip (x.data.map replaceInvalidChar))
    have hmapid : (pyStrip (x.data.map replaceInvalidChar)).map replaceInvalidChar =
        pyStrip (x.data.map replaceInvalidChar) := by
      apply map_fixed
      intro c hc
      obtain ⟨c2, _, hc2⟩ := List.mem_map.1 (mem_of_mem_pyStrip hc)
      rw [← hc2]
      exact replaceInvalidChar_idem c2
    rw [hmapid, pyStrip_idem]
  · intro c hcinv hcdata
    obtain ⟨c2, _, hc2⟩ := List.mem_map.1 (mem_of_mem_pyStrip hcdata)
    exact replaceInvalidChar_not_invalid c2 (hc2.symm ▸ hcinv)

/-- Witness for C7 at a string containing an invalid character and
trailing whitespace. -/
theorem c7_sanitizer_witness :
    ('<' ∈ invalidChars) ∧
    sanitizeFilename (sanitizeFilename " a<b ") = sanitizeFilename " a<b " ∧
    '<' ∉ (sanitizeFilename " a<b ").data :=
  ⟨by decide, (c7_sanitizer " a<b ").1, (c7_sanitizer " a<b ").2 '<' (by decide)⟩

/-- C8: the top level entry name of the archive is the sanitized
notebook name followed by the separator, defaulting to the literal
"notebook" for an absent (None) or empty name; every entry of every
produced archive lies below that top level directory. -/
theorem c8_toplevel_name (client : S3Client) (notebookName : Option String)
    (files : List File) (folders : List Folder) :
    exportBase none = "notebook" ++ "/" ∧
    exportBase (some "") = "notebook" ++ "/" ∧
    (∀ s, s ≠ "" → exportBase (some s) = sanitizeFilename s ++ "/") ∧
    (∀ es e, exportNotebookAsZip client notebookName files folders = some es → e ∈ es →
      ∃ rest, e.path = exportBase notebookName ++ rest) := by
  refine ⟨by decide, by decide, ?_, ?_⟩
  · intro s hs
    simp [exportBase, pyOrDefault, hs]
  · intro es e hexp hmem
    unfold exportNotebookAsZip at hexp
    cases hfe : folderEntries (exportBase notebookName) folders with
    | none => rw [hfe] at hexp; cases hexp
    | some dirs =>
      rw [hfe] at hexp
      have hes : es = dirs ++
          addFilesToZip (fileStep client (exportBase notebookName) folders) files :=
        (Option.some.inj hexp).symm
      subst hes
      rcases List.mem_append.1 hmem with hd | hf
      · unfold folderEntries at hfe
        obtain ⟨ps, _, hdirs⟩ := Option.map_eq_some'.1 hfe
        rw [← hdirs] at hd
        obtain ⟨p, _, hpe⟩ := List.mem_map.1 hd
        refine ⟨p ++ "/", ?_⟩
        rw [← hpe]
        simp [String.append_assoc]
      · rw [addFilesToZip_eq_filterMap] at hf
        obtain ⟨f, _, hstep⟩ := List.mem_filterMap.1 hf
        exact fileStep_below_base _ _ _ _ _ hstep

/-- Witness for C8 at an export invoked with an absent notebook name. -/
theorem c8_toplevel_name_witness :
    exportNotebookAsZip none none [File.mk "x1" "a.md" none none none] [] =
      some [ZipEntry.mk "notebook/a.md" []] ∧
    ZipEntry.mk "notebook/a.md" [] ∈ [ZipEntry.mk "notebook/a.md" []] ∧
    ∃ rest, (ZipEntry.mk "notebook/a.md" []).path = exportBase none ++ rest :=
  ⟨by decide, by decide,
    (c8_toplevel_name none none [File.mk "x1" "a.md" none none none] []).2.2.2
      [ZipEntry.mk "notebook/a.md" []] (ZipEntry.mk "notebook/a.md" [])
      (by decide) (by decide)⟩

/-- C9: every collaborator operation issued by export_notebook_as_zip is
a read (the file listing, the folder listing, and S3 object reads): the
export performs no database commit, create, update or delete and no blob
storage write or delete, so persisted state is unchanged. -/
theorem c9_export_read_only (hasFolderRepo : Bool) (userId notebookId : String)
    (files : List File) (op : DbOp)
    (h : op ∈ exportOps hasFolderRepo userId notebookId files) : readOnlyOp op = true := by
  unfold exportOps at h
  rcases List.mem_cons.1 h with rfl | h2
  · rfl
  rcases List.mem_append.1 h2 with h3 | h4
  · cases hasFolderRepo with
    | false => simp at h3
    | true =>
      rw [if_pos rfl] at h3
      rcases List.mem_singleton.1 h3 with rfl
      rfl
  · obtain ⟨f, _, hop⟩ := List.mem_filterMap.1 h4
    by_cases hc : contentTruthy f.content
    · simp [hc] at hop
    · by_cases hk : strTruthy f.unique_filename
      · simp [hc, hk] at hop
        rw [← hop]
        rfl
      · simp [hc, hk] at hop

/-- Witness for C9 at the file-listing operation of a configured
folder repository. -/
theorem c9_export_read_only_witness :
    DbOp.listFiles "u" "n" ∈
      exportOps true "u" "n" [File.mk "x1" "a.wav" (some "k.wav") none none] ∧
    readOnlyOp (DbOp.listFiles "u" "n") = true :=
  ⟨by decide,
    c9_export_read_only true "u" "n" [File.mk "x1" "a.wav" (some "k.wav") none none]
      (DbOp.listFiles "u" "n") (by decide)⟩

/-- C10: with no configured blob storage client, get_file_bytes_from_s3
returns empty bytes for every storage key without raising, and every
file whose inline content is falsy is archived with empty content in
that configuration. -/
theorem c10_no_client (key : String) (f : File) :
    getFileBytesFromS3 none key = [] ∧
    (contentTruthy f.content = false → resolveContent none f = []) := by
  refine ⟨rfl, ?_⟩
  intro h
  cases hk : strTruthy f.unique_filename <;>
    simp [resolveContent, h, hk, getFileBytesFromS3]

/-- Witness for C10 at a blob-backed audio file without inline
content. -/
theorem c10_no_client_witness :
    contentTruthy (File.mk "x1" "a.wav" (some "k.wav") none none).content = false ∧
    getFileBytesFromS3 none "k.wav" = [] ∧
    resolveContent none (File.mk "x1" "a.wav" (some "k.wav") none none) = [] :=
  ⟨by decide,
    (c10_no_client "k.wav" (File.mk "x1" "a.wav" (some "k.wav") none none)).1,
    (c10_no_client "k.wav" (File.mk "x1" "a.wav" (some "k.wav") none none)).2 (by decide)⟩
